import Mathlib

/-!
Verification of the game-nights static leaderboard front-end.

The definitions below are a shallow embedding of the browser renderer
(`public` front-end script): guest-token normalization, URL token
extraction, name normalization (NFKD + combining-mark stripping +
lower-casing + trimming), avatar filename probing, and the section
renderers together with their error handling.  JavaScript strings are
modelled as Lean strings (sequences of Unicode scalar values), JSON
values as an inductive type, JS objects as association lists, and the
browser APIs (URLSearchParams lookup, image loading) as explicit
function parameters.  Unicode-dependent primitives (NFKD decomposition,
toLowerCase, the whitespace class) are modelled by explicit tables that
are faithful to the Unicode data for the Basic Latin and Latin-1 ranges
that player names and tokens draw from; characters outside the table
are left unchanged.
-/

namespace GameNights

/-- Combining diacritical marks, the range stripped by the regex
`[̀-ͯ]` in `normalizeName`. -/
def isCombiningMark (c : Char) : Bool :=
  0x300 ≤ c.toNat && c.toNat ≤ 0x36F

/-- The JavaScript whitespace class: the characters matched by `\s` and
removed by `String.prototype.trim` (WhiteSpace ∪ LineTerminator). -/
def jsWhitespaceChar (c : Char) : Bool :=
  let n := c.toNat
  n == 9 || n == 10 || n == 11 || n == 12 || n == 13 || n == 32 ||
  n == 0xA0 || n == 0x1680 || (0x2000 ≤ n && n ≤ 0x200A) ||
  n == 0x2028 || n == 0x2029 || n == 0x202F || n == 0x205F ||
  n == 0x3000 || n == 0xFEFF

/-- `String.prototype.trim` on a character list: drop the maximal
whitespace run at both ends. -/
def jsTrimList (l : List Char) : List Char :=
  ((l.dropWhile jsWhitespaceChar).reverse.dropWhile jsWhitespaceChar).reverse

/-- `String.prototype.trim`. -/
def jsTrim (s : String) : String :=
  String.mk (jsTrimList s.toList)

/-- The NFKD decompositions of the Latin-1 letters, per the Unicode
Character Database: each precomposed letter maps to its base letter
followed by a combining mark, and the micro sign µ (U+00B5) has the
compatibility decomposition to Greek μ (U+03BC).  Letters without a
decomposition (Æ, Ð, Ø, Þ, ß, æ, ð, ø, þ) are absent. -/
def decompPairs : List (Char × List Char) :=
  [('À', ['A', '̀']), ('Á', ['A', '́']), ('Â', ['A', '̂']),
   ('Ã', ['A', '̃']), ('Ä', ['A', '̈']), ('Å', ['A', '̊']),
   ('Ç', ['C', '̧']), ('È', ['E', '̀']), ('É', ['E', '́']),
   ('Ê', ['E', '̂']), ('Ë', ['E', '̈']), ('Ì', ['I', '̀']),
   ('Í', ['I', '́']), ('Î', ['I', '̂']), ('Ï', ['I', '̈']),
   ('Ñ', ['N', '̃']), ('Ò', ['O', '̀']), ('Ó', ['O', '́']),
   ('Ô', ['O', '̂']), ('Õ', ['O', '̃']), ('Ö', ['O', '̈']),
   ('Ù', ['U', '̀']), ('Ú', ['U', '́']), ('Û', ['U', '̂']),
   ('Ü', ['U', '̈']), ('Ý', ['Y', '́']),
   ('à', ['a', '̀']), ('á', ['a', '́']), ('â', ['a', '̂']),
   ('ã', ['a', '̃']), ('ä', ['a', '̈']), ('å', ['a', '̊']),
   ('ç', ['c', '̧']), ('è', ['e', '̀']), ('é', ['e', '́']),
   ('ê', ['e', '̂']), ('ë', ['e', '̈']), ('ì', ['i', '̀']),
   ('í', ['i', '́']), ('î', ['i', '̂']), ('ï', ['i', '̈']),
   ('ñ', ['n', '̃']), ('ò', ['o', '̀']), ('ó', ['o', '́']),
   ('ô', ['o', '̂']), ('õ', ['o', '̃']), ('ö', ['o', '̈']),
   ('ù', ['u', '̀']), ('ú', ['u', '́']), ('û', ['u', '̂']),
   ('ü', ['u', '̈']), ('ý', ['y', '́']), ('ÿ', ['y', '̈']),
   ('µ', ['μ'])]

/-- The characters that `decompPairs` decomposes. -/
def decompDomain : List Char :=
  ['À', 'Á', 'Â', 'Ã', 'Ä', 'Å', 'Ç', 'È', 'É', 'Ê', 'Ë', 'Ì', 'Í', 'Î',
   'Ï', 'Ñ', 'Ò', 'Ó', 'Ô', 'Õ', 'Ö', 'Ù', 'Ú', 'Û', 'Ü', 'Ý',
   'à', 'á', 'â', 'ã', 'ä', 'å', 'ç', 'è', 'é', 'ê', 'ë', 'ì', 'í', 'î',
   'ï', 'ñ', 'ò', 'ó', 'ô', 'õ', 'ö', 'ù', 'ú', 'û', 'ü', 'ý', 'ÿ', 'µ']

/-- One character's `normalize("NFKD")` decomposition (characters
outside the modelled table decompose to themselves). -/
def decomp (c : Char) : List Char :=
  ((decompPairs.find? (fun p => p.1 == c)).map Prod.snd).getD [c]

/-- `normalize("NFKD")` on a character list. -/
def nfkdList (l : List Char) : List Char :=
  l.flatMap decomp

/-- `String.prototype.toLowerCase` pairs for Basic Latin and Latin-1:
A–Z and À–Þ (except ×) map down by 32; every other character of the
range (µ included — its only case mate is the uppercase Μ) is already
lower case and left unchanged. -/
def lowerPairs : List (Char × Char) :=
  [('A', 'a'), ('B', 'b'), ('C', 'c'), ('D', 'd'), ('E', 'e'), ('F', 'f'),
   ('G', 'g'), ('H', 'h'), ('I', 'i'), ('J', 'j'), ('K', 'k'), ('L', 'l'),
   ('M', 'm'), ('N', 'n'), ('O', 'o'), ('P', 'p'), ('Q', 'q'), ('R', 'r'),
   ('S', 's'), ('T', 't'), ('U', 'u'), ('V', 'v'), ('W', 'w'), ('X', 'x'),
   ('Y', 'y'), ('Z', 'z'),
   ('À', 'à'), ('Á', 'á'), ('Â', 'â'), ('Ã', 'ã'), ('Ä', 'ä'), ('Å', 'å'),
   ('Æ', 'æ'), ('Ç', 'ç'), ('È', 'è'), ('É', 'é'), ('Ê', 'ê'), ('Ë', 'ë'),
   ('Ì', 'ì'), ('Í', 'í'), ('Î', 'î'), ('Ï', 'ï'), ('Ð', 'ð'), ('Ñ', 'ñ'),
   ('Ò', 'ò'), ('Ó', 'ó'), ('Ô', 'ô'), ('Õ', 'õ'), ('Ö', 'ö'), ('Ø', 'ø'),
   ('Ù', 'ù'), ('Ú', 'ú'), ('Û', 'û'), ('Ü', 'ü'), ('Ý', 'ý'), ('Þ', 'þ')]

/-- The characters that `lowerPairs` lower-cases. -/
def lowerDomain : List Char :=
  ['A', 'B', 'C', 'D', 'E', 'F', 'G', 'H', 'I', 'J', 'K', 'L', 'M', 'N',
   'O', 'P', 'Q', 'R', 'S', 'T', 'U', 'V', 'W', 'X', 'Y', 'Z',
   'À', 'Á', 'Â', 'Ã', 'Ä', 'Å', 'Æ', 'Ç', 'È', 'É', 'Ê', 'Ë', 'Ì', 'Í',
   'Î', 'Ï', 'Ð', 'Ñ', 'Ò', 'Ó', 'Ô', 'Õ', 'Ö', 'Ø', 'Ù', 'Ú', 'Û', 'Ü',
   'Ý', 'Þ']

/-- `toLowerCase` on one character (identity outside the table). -/
def toLowerCh (c : Char) : Char :=
  ((lowerPairs.find? (fun p => p.1 == c)).map Prod.snd).getD c

/-- `String.prototype.toLowerCase`. -/
def jsToLower (s : String) : String :=
  String.mk (s.toList.map toLowerCh)

/-- `normalizeName` from the front-end script:
`String(value).normalize("NFKD").replace(/[̀-ͯ]/g, "")
.toLowerCase().trim()`.  The `undefined`/`null` guard of the source is
irrelevant here because every call site passes a string. -/
def normalizeName (value : String) : String :=
  String.mk (jsTrimList
    (((nfkdList value.toList).filter (fun c => !isCombiningMark c)).map toLowerCh))

/-- The per-character action of decomposing, stripping combining marks
and lower-casing; `normalizeName` is `jsTrimList` after binding this
over the input. -/
def charNorm (c : Char) : List Char :=
  ((decomp c).filter (fun c => !isCombiningMark c)).map toLowerCh

/-- A list has no leading JS whitespace. -/
def NoLeadWs (l : List Char) : Prop :=
  ∀ x ∈ l.head?, jsWhitespaceChar x = false

/-- One primitive edit that changes only letter case or combining
diacritical marks: replacing a character by one with the same lower
case, inserting a combining mark, or replacing a character by its
canonical decomposition. -/
inductive NameStep : List Char → List Char → Prop
  | lowerEq (u v : List Char) (c d : Char) (h : toLowerCh c = toLowerCh d) :
      NameStep (u ++ c :: v) (u ++ d :: v)
  | markInsert (u v : List Char) (m : Char) (h : isCombiningMark m = true) :
      NameStep (u ++ v) (u ++ m :: v)
  | decompose (u v : List Char) (c : Char) :
      NameStep (u ++ c :: v) (u ++ decomp c ++ v)

/-- Two strings differ only in letter case and/or combining diacritical
marks when they are related by the equivalence closure of `NameStep`. -/
def CaseDiacriticEquiv (s t : String) : Prop :=
  Relation.EqvGen NameStep s.toList t.toList

/-- The highlight comparison used by the renderers:
`normalizeName(dataName) === normalizeName(highlightTarget)`. -/
def highlightMatch (dataName highlightTarget : String) : Bool :=
  normalizeName dataName == normalizeName highlightTarget

/-! ### JSON values and JavaScript primitives -/

/-- JSON values as delivered by `response.json()`.  Numbers are
modelled as integers (every numeric field in the data files is
integral); objects are association lists in insertion order. -/
inductive JVal where
  | null : JVal
  | bool (b : Bool) : JVal
  | num (n : Int) : JVal
  | str (s : String) : JVal
  | arr (elems : List JVal) : JVal
  | obj (fields : List (String × JVal)) : JVal

/-- JavaScript truthiness on our value subset. -/
def jsTruthy : JVal → Bool
  | .null => false
  | .bool b => b
  | .num n => n != 0
  | .str s => s != ""
  | .arr _ => true
  | .obj _ => true

/-- `typeof v === "object"` for a non-`null` value. -/
def isObjectType : JVal → Bool
  | .obj _ => true
  | .arr _ => true
  | _ => false

mutual

/-- JavaScript `String(v)` on our value subset. -/
def jsToString : JVal → String
  | .null => "null"
  | .bool true => "true"
  | .bool false => "false"
  | .num n => toString n
  | .str s => s
  | .arr elems => jsArrToString elems
  | .obj _ => "[object Object]"

/-- `Array.prototype.toString`: element strings joined by commas, with
`null` elements rendering as the empty string. -/
def jsArrToString : List JVal → String
  | [] => ""
  | [JVal.null] => ""
  | [x] => jsToString x
  | JVal.null :: xs => "," ++ jsArrToString xs
  | x :: xs => jsToString x ++ "," ++ jsArrToString xs

end

/-- JavaScript property access `o.k`: an object's own field, `none`
(`undefined`) otherwise. -/
def jsGetField (v : JVal) (k : String) : Option JVal :=
  match v with
  | .obj fields => (fields.find? (fun p => p.1 == k)).map Prod.snd
  | _ => none

/-- The `(key, value)` pairs visited by iterating `Object.keys(source)`
and indexing: an object's own fields, or an array's indices. -/
def jsOwnEntries : JVal → List (String × JVal)
  | .obj fields => fields
  | .arr elems => ((List.range elems.length).zip elems).map fun p => (toString p.1, p.2)
  | _ => []

/-- The property names a plain object inherits from `Object.prototype`,
each bound to a truthy function (or, for the accessor at the end, to
the prototype object itself). -/
def objectProtoKeys : List String :=
  ["constructor", "hasOwnProperty", "isPrototypeOf", "propertyIsEnumerable",
   "toLocaleString", "toString", "valueOf", "__defineGetter__",
   "__defineSetter__", "__lookupGetter__", "__lookupSetter__", "__proto__"]

/-- `map[k] = v` on a JS object used as a string map: assigning through
the key `__proto__` hits the inherited accessor and, with a string
value, creates no own property at all; otherwise overwrite in place
when the key is present, append otherwise.  (Maps reached here are
built from `{}` by such assignments, so they never own a `__proto__`
entry themselves.) -/
def jsSetKey (m : List (String × String)) (k v : String) : List (String × String) :=
  if k = "__proto__" then m
  else if m.any (fun p => p.1 == k) then
    m.map fun p => if p.1 == k then (k, v) else p
  else
    m ++ [(k, v)]

/-- `map[k]` restricted to the object's own entries. -/
def jsLookup (m : List (String × String)) (k : String) : Option String :=
  (m.find? (fun p => p.1 == k)).map Prod.snd

/-- What reading `obj[k]` on a plain string-map object yields: an own
data property, a truthy non-string value inherited from
`Object.prototype`, or `undefined`. -/
inductive PropRead where
  | ownStr (v : String)
  | inheritedFn
  | absent
deriving DecidableEq

/-- Property read `obj[k]` with the prototype chain: the own entry when
one exists, else the inherited `Object.prototype` member, else
`undefined`. -/
def jsReadProp (m : List (String × String)) (k : String) : PropRead :=
  match m.find? (fun p => p.1 == k) with
  | some p => .ownStr p.2
  | none => if objectProtoKeys.contains k then .inheritedFn else .absent

/-! ### `normalizeGuestTokens` -/

/-- The source object of the mapping shape:
`raw.tokens && typeof raw.tokens === "object" ? raw.tokens : raw`. -/
def tokensSource (raw : JVal) : JVal :=
  match jsGetField raw "tokens" with
  | some t => if jsTruthy t && isObjectType t then t else raw
  | none => raw

/-- `normalizeGuestTokens` from the front-end script: accepts the array
shape (`[..., another entry with token and name, ...]`) and the mapping shape
(token to name, possibly nested under a `tokens` field), producing one
canonical string map; anything else yields the empty map. -/
def normalizeGuestTokens (raw : JVal) : List (String × String) :=
  if !jsTruthy raw then []
  else match raw with
    | .arr entries =>
        entries.foldl (fun map entry =>
          if jsTruthy entry && isObjectType entry then
            match jsGetField entry "token", jsGetField entry "name" with
            | some tv, some nv =>
                if jsTruthy tv && jsTruthy nv then
                  jsSetKey map (jsToString tv) (jsToString nv)
                else map
            | _, _ => map
          else map) []
    | .obj _ =>
        (jsOwnEntries (tokensSource raw)).foldl (fun map p =>
          match p.2 with
          | .str s => if jsTrim s != "" then jsSetKey map p.1 (jsTrim s) else map
          | _ => map) []
    | _ => []

/-- The array-shape qualification rule as the specification words it:
an element that is an object with truthy `token` and `name` fields
contributes `String(token) ↦ String(name)`. -/
def arrQualify (entry : JVal) : Option (String × String) :=
  if jsTruthy entry && isObjectType entry then
    match jsGetField entry "token", jsGetField entry "name" with
    | some tv, some nv =>
        if jsTruthy tv && jsTruthy nv then some (jsToString tv, jsToString nv)
        else none
    | _, _ => none
  else none

/-- The mapping-shape qualification rule as the specification words it:
a key whose value is a string that is non-empty after trimming
contributes `key ↦ trimmed value`. -/
def mapQualify (p : String × JVal) : Option (String × String) :=
  match p.2 with
  | .str s => if jsTrim s != "" then some (p.1, jsTrim s) else none
  | _ => none

/-! ### URL token extraction -/

/-- The `URLSearchParams` view of the page URL's query string: `get`
returns a parameter's first value or `null` when absent. -/
structure UrlParams where
  get : String → Option String

/-- The fixed priority order of the recognized query parameters. -/
def priorityOrder : List String :=
  ["guest", "token", "code", "ticket"]

/-- The exception a modelled browser primitive throws. -/
inductive JsError where
  | uriError : JsError
deriving DecidableEq

/-- Hex digit value, both letter cases, as accepted in `%` escapes
(code points 48–57 are the digits, 65–70 and 97–102 the letters). -/
def hexVal (c : Char) : Option Nat :=
  let n := c.toNat
  if 48 ≤ n && n ≤ 57 then some (n - 48)
  else if 65 ≤ n && n ≤ 70 then some (n - 55)
  else if 97 ≤ n && n ≤ 102 then some (n - 87)
  else none

/-- Split a string into literal characters and `%XX` escape bytes; a
malformed escape raises `URIError` (`none`). -/
def uriTokens : List Char → Option (List (Sum Char Nat))
  | [] => some []
  | c :: rest =>
      if c = '%' then
        match rest with
        | h1 :: h2 :: rest2 =>
            match hexVal h1, hexVal h2 with
            | some a, some b => (uriTokens rest2).map (Sum.inr (16 * a + b) :: ·)
            | _, _ => none
        | _ => none
      else (uriTokens rest).map (Sum.inl c :: ·)

/-- A UTF-8 continuation byte. -/
def utf8Cont (b : Nat) : Bool :=
  0x80 ≤ b && b ≤ 0xBF

/-- Reassemble decoded escape bytes into characters, with the strict
UTF-8 validation of `decodeURIComponent`: a lone continuation byte, a
truncated sequence, an overlong encoding, a surrogate, or a value
beyond U+10FFFF raises `URIError` (`none`). -/
def utf8Assemble : List (Sum Char Nat) → Option (List Char)
  | [] => some []
  | Sum.inl c :: rest => (utf8Assemble rest).map (c :: ·)
  | Sum.inr b :: rest =>
      if b < 0x80 then (utf8Assemble rest).map (Char.ofNat b :: ·)
      else if 0xC0 ≤ b ∧ b ≤ 0xDF then
        match rest with
        | Sum.inr b2 :: rest2 =>
            if utf8Cont b2 then
              let cp := (b - 0xC0) * 64 + (b2 - 0x80)
              if 0x80 ≤ cp then (utf8Assemble rest2).map (Char.ofNat cp :: ·)
              else none
            else none
        | _ => none
      else if 0xE0 ≤ b ∧ b ≤ 0xEF then
        match rest with
        | Sum.inr b2 :: Sum.inr b3 :: rest2 =>
            if utf8Cont b2 && utf8Cont b3 then
              let cp := (b - 0xE0) * 4096 + (b2 - 0x80) * 64 + (b3 - 0x80)
              if 0x800 ≤ cp ∧ ¬(0xD800 ≤ cp ∧ cp ≤ 0xDFFF) then
                (utf8Assemble rest2).map (Char.ofNat cp :: ·)
              else none
            else none
        | _ => none
      else if 0xF0 ≤ b ∧ b ≤ 0xF7 then
        match rest with
        | Sum.inr b2 :: Sum.inr b3 :: Sum.inr b4 :: rest2 =>
            if utf8Cont b2 && utf8Cont b3 && utf8Cont b4 then
              let cp := (b - 0xF0) * 262144 + (b2 - 0x80) * 4096 +
                (b3 - 0x80) * 64 + (b4 - 0x80)
              if 0x10000 ≤ cp ∧ cp ≤ 0x10FFFF then
                (utf8Assemble rest2).map (Char.ofNat cp :: ·)
              else none
            else none
        | _ => none
      else none

/-- `decodeURIComponent`; `.error .uriError` models a thrown
`URIError`. -/
def decodeURIComponent (s : String) : Except JsError String :=
  match uriTokens s.toList with
  | none => .error .uriError
  | some toks =>
      match utf8Assemble toks with
      | none => .error .uriError
      | some chars => .ok (String.mk chars)

/-- `raw.replace(/\+/g, " ")`. -/
def plusToSpace (s : String) : String :=
  String.mk (s.toList.map fun c => if c = '+' then ' ' else c)

/-- `getGuestTokenFromUrl`: picks the first present parameter among
`guest`, `token`, `code`, `ticket` (the `??` chain falls through only
on `null`, not on an empty value), then replaces `+` by spaces,
percent-decodes, and trims; `null` when nothing is present or the
result is empty.  The `URIError` a malformed escape raises
propagates. -/
def getGuestTokenFromUrl (params : UrlParams) : Except JsError (Option String) :=
  let raw := (params.get "guest").or
    ((params.get "token").or ((params.get "code").or (params.get "ticket")))
  match raw with
  | none => .ok none
  | some r =>
      if r = "" then .ok none
      else
        match decodeURIComponent (plusToSpace r) with
        | .error e => .error e
        | .ok d =>
            let decoded := jsTrim d
            if decoded = "" then .ok none else .ok (some decoded)

/-! ### `renderGreeting` -/

/-- The `#guest-greeting` element's state. -/
structure GreetingEl where
  hidden : Bool
  textContent : String
deriving DecidableEq

/-- `renderGreeting`: reads `tokens[token]` (prototype chain included)
and shows the greeting for any truthy result — an own registry entry
with a non-empty name, or a property inherited from `Object.prototype`
(e.g. token `constructor`), whose engine-dependent string form
`protoStr` supplies for the interpolated text and return value.
`present` models whether `#guest-greeting` exists; `g0` is the
element's prior state.  Returns the updated element and the function's
return value (the matched value or `null`).  The `URIError` a malformed
token escape raises propagates uncaught. -/
def renderGreeting (protoStr : String → String)
    (tokens : List (String × String)) (params : UrlParams)
    (present : Bool) (g0 : GreetingEl) :
    Except JsError (GreetingEl × Option String) :=
  if !present then .ok (g0, none)
  else match getGuestTokenFromUrl params with
    | .error e => .error e
    | .ok none => .ok (⟨true, ""⟩, none)
    | .ok (some token) =>
        match jsReadProp tokens token with
        | .absent => .ok (⟨true, ""⟩, none)
        | .ownStr guestName =>
            if guestName = "" then .ok (⟨true, ""⟩, none)
            else .ok (⟨false, "Welcome to the party, " ++ guestName ++ "!"⟩,
              some guestName)
        | .inheritedFn =>
            .ok (⟨false, "Welcome to the party, " ++ protoStr token ++ "!"⟩,
              some (protoStr token))

/-- The greeting outcome for an extracted token: the element is shown
with the personalized text exactly when the token owns a registry entry
with a non-empty display name; a token naming an inherited
`Object.prototype` member leaks its stringified value into the
greeting; any other token (or no token) hides the element with no
returned name. -/
def greetingOutcome (protoStr : String → String)
    (tokens : List (String × String)) (tok : Option String) :
    GreetingEl × Option String :=
  match tok with
  | none => (⟨true, ""⟩, none)
  | some t =>
      match jsLookup tokens t with
      | some v =>
          if v = "" then (⟨true, ""⟩, none)
          else (⟨false, "Welcome to the party, " ++ v ++ "!"⟩, some v)
      | none =>
          if objectProtoKeys.contains t then
            (⟨false, "Welcome to the party, " ++ protoStr t ++ "!"⟩,
              some (protoStr t))
          else (⟨true, ""⟩, none)

/-! ### Avatar resolution -/

/-- `replace(/\s+/g, "_")`: each maximal whitespace run becomes one
underscore (`prev` records whether the previous character was part of a
run). -/
def underscoreWsAux : Bool → List Char → List Char
  | _, [] => []
  | prev, c :: rest =>
      if jsWhitespaceChar c then
        if prev then underscoreWsAux true rest
        else '_' :: underscoreWsAux true rest
      else c :: underscoreWsAux false rest

/-- `s.replace(/\s+/g, "_")`. -/
def jsReplaceWsUnderscore (s : String) : String :=
  String.mk (underscoreWsAux false s.toList)

/-- Characters `encodeURIComponent` leaves unescaped. -/
def uriUnreserved (c : Char) : Bool :=
  ('A' ≤ c && c ≤ 'Z') || ('a' ≤ c && c ≤ 'z') || ('0' ≤ c && c ≤ '9') ||
  c == '-' || c == '_' || c == '.' || c == '!' || c == '~' || c == '*' ||
  c == '\'' || c == '(' || c == ')'

/-- UTF-8 encoding of a Unicode scalar value. -/
def utf8Bytes (n : Nat) : List Nat :=
  if n < 0x80 then [n]
  else if n < 0x800 then [0xC0 + n / 64, 0x80 + n % 64]
  else if n < 0x10000 then
    [0xE0 + n / 4096, 0x80 + (n / 64) % 64, 0x80 + n % 64]
  else
    [0xF0 + n / 262144, 0x80 + (n / 4096) % 64, 0x80 + (n / 64) % 64,
     0x80 + n % 64]

/-- Upper-case hex digit. -/
def hexDigitUpper (n : Nat) : Char :=
  if n < 10 then Char.ofNat ('0'.toNat + n) else Char.ofNat ('A'.toNat + (n - 10))

/-- A percent-escaped byte, upper-case hex. -/
def percentByte (b : Nat) : List Char :=
  ['%', hexDigitUpper (b / 16), hexDigitUpper (b % 16)]

/-- `encodeURIComponent` (total: Lean strings carry no lone
surrogates). -/
def encodeURIComponent (s : String) : String :=
  String.mk (s.toList.flatMap fun c =>
    if uriUnreserved c then [c] else (utf8Bytes c.toNat).flatMap percentByte)

/-- `getAvatarBases` from the front-end script: the trimmed name, its
URL-encoded form, its whitespace-to-underscore form and its
ASCII-folded underscored form, deduplicated case-insensitively keeping
first occurrences and dropping empties. -/
def getAvatarBases (playerName : String) : List String :=
  if playerName = "" then []
  else
    let trimmed := jsTrim playerName
    let encoded := encodeURIComponent trimmed
    let underscored := jsReplaceWsUnderscore trimmed
    let ascii := jsReplaceWsUnderscore (normalizeName trimmed)
    let bases := [trimmed, encoded, underscored, ascii]
    (bases.foldl (fun acc base =>
      if base = "" then acc
      else
        let key := jsToLower base
        if acc.2.contains key then acc
        else (acc.1 ++ [base], acc.2 ++ [key])) ([], [])).1

/-- The case-insensitive first-kept deduplication, as the specification
words it (`seen` is the list of lower-cased keys already kept). -/
def dedupCaseInsensitive (seen : List String) : List String → List String
  | [] => []
  | b :: rest =>
      if b = "" then dedupCaseInsensitive seen rest
      else if seen.contains (jsToLower b) then dedupCaseInsensitive seen rest
      else b :: dedupCaseInsensitive (seen ++ [jsToLower b]) rest

/-- The probe extension list, in order. -/
def avatarExtensions : List String :=
  ["png", "jpg", "jpeg", "webp"]

/-- The candidate URLs `applyAvatar` probes, in order: every extension
of one base before the next base. -/
def avatarSources (playerName : String) : List String :=
  (getAvatarBases playerName).flatMap fun base =>
    avatarExtensions.map fun ext => "./avatars/" ++ base ++ "." ++ ext

/-- The avatar image element (and its wrapper) state. -/
structure AvatarEl where
  hidden : Bool
  wrapperHidden : Bool
  src : Option String
  alt : String
deriving DecidableEq

/-- The state `applyAvatar` reaches when every probe has failed: both
elements hidden, `src` removed, `alt` cleared. -/
def hiddenAvatarEl : AvatarEl :=
  ⟨true, true, none, ""⟩

/-- `applyAvatar`'s probe loop: `img.src` is set to each candidate in
turn; a failed load fires the `error` handler, which advances to the
next candidate or, past the end, hides the element. -/
def probeLoop (loads : String → Bool) : List String → AvatarEl → AvatarEl
  | [], _ => hiddenAvatarEl
  | src :: rest, el =>
      if loads src then { el with src := some src } else probeLoop loads rest el

/-- The steady state of `applyAvatar`, given an oracle `loads` telling
which URLs load successfully.  The element is first shown with the alt
text, then the probe loop runs; with no sources at all the element is
hidden immediately.  Image-load failures are events, not exceptions, so
the function is total. -/
def applyAvatar (loads : String → Bool) (playerName : String) : AvatarEl :=
  let sources := avatarSources playerName
  if sources.isEmpty then hiddenAvatarEl
  else
    probeLoop loads sources
      ⟨false, false, none,
        if playerName = "" then "" else playerName ++ "'s avatar"⟩

/-! ### Event timeline rendering -/

/-- An award entry of an event, as published in the feed. -/
structure Award where
  player : String
  reason : String
  points : Int
deriving DecidableEq

/-- An event of the feed's timeline. -/
structure EventEntry where
  name : String
  date : String
  awards : Option (List Award)
deriving DecidableEq

/-- One rendered award row. -/
structure AwardRender where
  player : String
  reason : String
  pointsText : String
  highlighted : Bool
  collapsed : Bool
deriving DecidableEq

/-- The awards block of one rendered event. -/
inductive AwardsBlock where
  | pending (text : String)
  | rows (items : List AwardRender) (expandShown : Bool) (expandLabel : String)
deriving DecidableEq

/-- One rendered event item. -/
structure EventRender where
  title : String
  dateText : String
  block : AwardsBlock
deriving DecidableEq

/-- A rendered timeline: either the empty-state message or the item
list. -/
inductive ListRender where
  | message (text : String)
  | items (l : List EventRender)
deriving DecidableEq

/-- The truthy-highlight test `highlightedName && normalizeName(x) ===
normalizeName(highlightedName)`. -/
def isHighlighted (highlightedName : Option String) (x : String) : Bool :=
  match highlightedName with
  | some h => h != "" && highlightMatch x h
  | none => false

/-- `Array.prototype.slice(0, n)` (a negative end counts from the end
of the array). -/
def jsSliceFrom0 {α : Type} (l : List α) (n : Int) : List α :=
  l.take (if n < 0 then ((l.length : Int) + n).toNat else n.toNat)

/-- One award row of `renderEvents` (an award at index `idx` is
collapsed when expansion is enabled and the index is at or past the
preview count). -/
def renderAwardRow (highlightedName : Option String) (allowExpand : Bool)
    (previewCount : Nat) (idx : Nat) (award : Award) : AwardRender :=
  { player := award.player
    reason := award.reason
    pointsText := "+" ++ toString award.points
    highlighted := isHighlighted highlightedName award.player
    collapsed := allowExpand && decide (previewCount ≤ idx) }

/-- The expand-button label. -/
def expandLabelFor (hiddenCount : Nat) : String :=
  if hiddenCount = 1 then "Show 1 more" else "Show " ++ toString hiddenCount ++ " more"

/-- One event item of `renderEvents`. -/
def renderEventItem (fmtDate : String → String) (highlightedName : Option String)
    (allowExpand : Bool) (awardPreviewLimit : Option Int) (event : EventEntry) :
    EventRender :=
  let block := match event.awards with
    | none => AwardsBlock.pending "Awards logged, details pending."
    | some [] => AwardsBlock.pending "Awards logged, details pending."
    | some awards =>
        let previewCount : Nat :=
          if allowExpand then
            match awardPreviewLimit with
            | some n => (max 0 n).toNat
            | none => awards.length
          else awards.length
        let items := ((List.range awards.length).zip awards).map fun p =>
          renderAwardRow highlightedName allowExpand previewCount p.1 p.2
        let hiddenCount := (items.filter (fun r => r.collapsed)).length
        if allowExpand && decide (hiddenCount ≠ 0) then
          AwardsBlock.rows items true (expandLabelFor hiddenCount)
        else
          AwardsBlock.rows items false ""
  ⟨event.name, fmtDate event.date, block⟩

/-- `renderEvents`: slices the event list to the configured `limit`
when one is given (`typeof limit === "number"`), renders the
empty-state message when nothing remains, and otherwise renders each
selected event in order.  `fmtDate` stands for the locale date
formatter `asLocaleDate`; the container and templates are modelled as
present. -/
def renderEvents (fmtDate : String → String) (events : List EventEntry)
    (highlightedName : Option String) (limit : Option Int)
    (emptyMessage : String) (awardPreviewLimit : Option Int)
    (allowExpand : Bool) : ListRender :=
  let items := match limit with
    | some n => jsSliceFrom0 events n
    | none => events
  if items.isEmpty then .message emptyMessage
  else .items (items.map
    (renderEventItem fmtDate highlightedName allowExpand awardPreviewLimit))

/-! ### Player activity rendering -/

/-- A per-game play count of an activity entry. -/
structure GameCount where
  game : String
  count : Int
deriving DecidableEq

/-- The `podiums` object of an activity entry (keys 1, 2, 3). -/
structure Podiums where
  p1 : Option Int
  p2 : Option Int
  p3 : Option Int
deriving DecidableEq

/-- One entry of the feed's `playerActivity` list. -/
structure ActivityEntry where
  player : String
  totalPlays : Int
  games : Option (List GameCount)
  podiums : Option Podiums
deriving DecidableEq

/-- The filter of `renderPlayerActivity`:
`entry.totalPlays > 0 || entry.games?.length`. -/
def activityMeaningful (entry : ActivityEntry) : Bool :=
  decide (0 < entry.totalPlays) ||
    (match entry.games with
     | some gs => !gs.isEmpty
     | none => false)

/-- One rendered activity card. -/
structure ActivityCard where
  player : String
  totalText : String
  stats : List (String × String)
  highlighted : Bool
deriving DecidableEq

/-- `n || 0` on an optional number. -/
def orZero (n : Option Int) : Int :=
  match n with
  | some v => v
  | none => 0

/-- One activity card of `renderPlayerActivity`. -/
def renderActivityCard (highlightedName : Option String)
    (entry : ActivityEntry) : ActivityCard :=
  let gameStats := match entry.games with
    | some gs =>
        if !gs.isEmpty then
          (gs.take 3).map fun g => (g.game, toString g.count ++ "×")
        else [("Games", "None yet")]
    | none => [("Games", "None yet")]
  let pd := match entry.podiums with
    | some p => p
    | none => ⟨none, none, none⟩
  let podiumTotal := orZero pd.p1 + orZero pd.p2 + orZero pd.p3
  let podiumStats :=
    if 0 < podiumTotal then
      [("Podiums", toString (orZero pd.p1) ++ "/" ++ toString (orZero pd.p2) ++
        "/" ++ toString (orZero pd.p3))]
    else []
  { player := entry.player
    totalText := toString entry.totalPlays ++ " play" ++
      (if entry.totalPlays = 1 then "" else "s")
    stats := gameStats ++ podiumStats
    highlighted := isHighlighted highlightedName entry.player }

/-- A rendered activity section: the placeholder or the card list. -/
inductive ActivityRender where
  | placeholder (text : String)
  | cards (l : List ActivityCard)
deriving DecidableEq

/-- `renderPlayerActivity`: filters out entries with zero plays and no
games, shows a placeholder when nothing remains, and renders a card per
remaining entry.  The container and template are modelled as
present. -/
def renderPlayerActivity (activity : List ActivityEntry)
    (highlightedName : Option String) : ActivityRender :=
  let meaningful := activity.filter activityMeaningful
  if meaningful.isEmpty then
    .placeholder "Log plays to build up player activity stats."
  else .cards (meaningful.map (renderActivityCard highlightedName))

/-! ### `init` and `handleError` -/

/-- Which of the data elements exist on the current page (the
`querySelector` guards). -/
structure PageDoc where
  greeting : Bool
  leaderboardList : Bool
  recentPlays : Bool
  eventsTimeline : Bool
  allEventsList : Bool
  allPlaysList : Bool
  playerActivity : Bool

/-- A data section's content, abstracted to what `init` and
`handleError` decide: untouched, populated from the fetched feed, or
replaced with a literal error message. -/
inductive SectionContent where
  | initial
  | fromData
  | errMsg (text : String)
deriving DecidableEq

/-- The page state `init` produces. -/
structure InitView where
  greetingEl : GreetingEl
  highlightedName : Option String
  leaderboardList : SectionContent
  recentPlays : SectionContent
  eventsTimeline : SectionContent
  allEventsList : SectionContent
  allPlaysList : SectionContent
  playerActivity : SectionContent
deriving DecidableEq

/-- `handleError`: replaces each data section that exists on the page
with its literal user-facing error message; the greeting element is not
touched. -/
def handleError (doc : PageDoc) (v : InitView) : InitView :=
  { v with
    leaderboardList := if doc.leaderboardList then
        .errMsg "We could not load the leaderboard right now. Refresh to try again or contact Lorenzo."
      else v.leaderboardList
    recentPlays := if doc.recentPlays then .errMsg "Could not load plays."
      else v.recentPlays
    eventsTimeline := if doc.eventsTimeline then .errMsg "Could not load point log."
      else v.eventsTimeline
    allEventsList := if doc.allEventsList then .errMsg "Could not load point log."
      else v.allEventsList
    allPlaysList := if doc.allPlaysList then .errMsg "Could not load plays."
      else v.allPlaysList
    playerActivity := if doc.playerActivity then .errMsg "Player activity unavailable."
      else v.playerActivity }

/-- The guest-token registry `init` works with: the normalized fetch
result, or the empty registry when the fetch failed (the `catch` only
warns). -/
def fetchedTokens (tokensFetch : Except Unit JVal) : List (String × String) :=
  match tokensFetch with
  | .ok v => normalizeGuestTokens v
  | .error _ => []

/-- `init`: the guest-token fetch is wrapped in its own `try`/`catch`
(a failure falls back to an empty registry and only warns); the
greeting is rendered next, outside any `try`; then the leaderboard
fetch with all section rendering runs in a second `try` whose `catch`
is `handleError`.  Fetch outcomes are inputs (`.error` = rejected
fetch/parse); the rendering of the individual sections from fetched
data is abstracted to `.fromData` (the dedicated render functions model
their detail). -/
def init (protoStr : String → String) (doc : PageDoc) (params : UrlParams)
    (g0 : GreetingEl) (tokensFetch : Except Unit JVal)
    (lbFetch : Except Unit JVal) : Except JsError InitView :=
  let guestTokens := fetchedTokens tokensFetch
  match renderGreeting protoStr guestTokens params doc.greeting g0 with
  | .error e => .error e
  | .ok (gEl, highlighted) =>
      let v0 : InitView :=
        ⟨gEl, highlighted, .initial, .initial, .initial, .initial, .initial,
          .initial⟩
      match lbFetch with
      | .error _ => .ok (handleError doc v0)
      | .ok _ =>
          .ok { v0 with
            leaderboardList := if doc.leaderboardList then .fromData else .initial
            recentPlays := if doc.recentPlays then .fromData else .initial
            eventsTimeline := if doc.eventsTimeline then .fromData else .initial
            allEventsList := if doc.allEventsList then .fromData else .initial
            allPlaysList := if doc.allPlaysList then .fromData else .initial
            playerActivity := if doc.playerActivity then .fromData else .initial }

/-! ### Sample inputs for witnesses and counterexamples -/

/-- The `URLSearchParams` view of a page URL such as `?guest=%25C3`:
the `guest` parameter's once-decoded value is the truncated UTF-8
escape `%C3`. -/
def paramsTruncatedUtf8 : UrlParams :=
  ⟨fun k => if k = "guest" then some "%C3" else none⟩

/-- The `URLSearchParams` view of a page URL such as `?guest=%` (or
`?guest=%25`): the `guest` parameter's value is a lone percent sign. -/
def paramsLonePercent : UrlParams :=
  ⟨fun k => if k = "guest" then some "%" else none⟩

/-- A query string carrying `?guest=Q7xG8O`. -/
def paramsSasha : UrlParams :=
  ⟨fun k => if k = "guest" then some "Q7xG8O" else none⟩

/-- A query string carrying `?guest=&token=Q7xG8O`: the higher-priority
parameter is present but empty while a lower-priority one has a
value. -/
def paramsEmptyGuest : UrlParams :=
  ⟨fun k =>
    if k = "guest" then some ""
    else if k = "token" then some "Q7xG8O" else none⟩

/-- A query string carrying `?guest=constructor`. -/
def paramsGuestConstructor : UrlParams :=
  ⟨fun k => if k = "guest" then some "constructor" else none⟩

/-- A query string carrying `?guest=a`. -/
def paramsGuestA : UrlParams :=
  ⟨fun k => if k = "guest" then some "a" else none⟩

/-- A sample token registry. -/
def sampleTokens : List (String × String) :=
  [("Q7xG8O", "Sasha")]

/-- A stand-in for the engine's string rendering of an inherited
`Object.prototype` member (the exact text is engine-defined). -/
def sampleProtoStr (k : String) : String :=
  "function " ++ k ++ "()"


/-- A sample event list. -/
def sampleEvents : List EventEntry :=
  [⟨"Game Night 1", "2025-01-03", some [⟨"Jess", "Won the final", 5⟩]⟩,
   ⟨"Game Night 2", "2025-01-10", none⟩,
   ⟨"Game Night 3", "2025-01-17", some []⟩]

/-- A page carrying every data element. -/
def fullDoc : PageDoc :=
  ⟨true, true, true, true, true, true, true⟩

/-! ### Character-level facts about the normalization tables -/

example : normalizeName "  José " = "jose" := rfl
example : normalizeName "JOSÉ" = "jose" := rfl
example : normalizeName "Ça va" = "ca va" := rfl

theorem decompPairs_keys : ∀ x ∈ decompPairs, x.1 ∈ decompDomain := by decide

theorem decomp_eq_self {c : Char} (h : c ∉ decompDomain) : decomp c = [c] := by
  have hf : decompPairs.find? (fun p => p.1 == c) = none := by
    rw [List.find?_eq_none]
    intro x hx hb
    have hx1 : x.1 = c := by simpa using hb
    exact h (hx1 ▸ decompPairs_keys x hx)
  unfold decomp
  rw [hf]
  rfl

theorem lowerPairs_keys : ∀ x ∈ lowerPairs, x.1 ∈ lowerDomain := by decide

theorem toLowerCh_eq_self {c : Char} (h : c ∉ lowerDomain) : toLowerCh c = c := by
  have hf : lowerPairs.find? (fun p => p.1 == c) = none := by
    rw [List.find?_eq_none]
    intro x hx hb
    have hx1 : x.1 = c := by simpa using hb
    exact h (hx1 ▸ lowerPairs_keys x hx)
  unfold toLowerCh
  rw [hf]
  rfl

theorem decompDomain_not_mark : ∀ c ∈ decompDomain, isCombiningMark c = false := by
  decide

theorem decomp_of_mark {c : Char} (h : isCombiningMark c = true) : decomp c = [c] := by
  refine decomp_eq_self fun hc => ?_
  have := decompDomain_not_mark c hc
  rw [this] at h
  exact Bool.false_ne_true h

/-- A combining mark normalizes to nothing: its decomposition is itself
and the mark filter removes it. -/
theorem charNorm_mark {c : Char} (h : isCombiningMark c = true) : charNorm c = [] := by
  unfold charNorm
  rw [decomp_of_mark h]
  simp [h]

theorem charNorm_reduced_of_mem_decompDomain :
    ∀ c ∈ decompDomain, ∀ d ∈ charNorm c, charNorm d = [d] := by decide

theorem charNorm_lower_of_mem_lowerDomain :
    ∀ c ∈ lowerDomain, c ∉ decompDomain → charNorm (toLowerCh c) = [toLowerCh c] := by
  decide

/-- Every character produced by `charNorm` is a fixed point of
`charNorm`: it is fully decomposed, not a combining mark, and already
lower case. -/
theorem charNorm_reduced {c d : Char} (h : d ∈ charNorm c) : charNorm d = [d] := by
  by_cases hc : c ∈ decompDomain
  · exact charNorm_reduced_of_mem_decompDomain c hc d h
  · have hdc : decomp c = [c] := decomp_eq_self hc
    unfold charNorm at h
    rw [hdc] at h
    by_cases hm : isCombiningMark c
    · simp [hm] at h
    · simp [hm] at h
      subst h
      by_cases hl : c ∈ lowerDomain
      · exact charNorm_lower_of_mem_lowerDomain c hl hc
      · rw [toLowerCh_eq_self hl]
        unfold charNorm
        rw [hdc]
        simp [hm, toLowerCh_eq_self hl]

theorem charNorm_toLowerCh_of_mem :
    ∀ c ∈ lowerDomain, charNorm (toLowerCh c) = charNorm c := by decide

/-- Lower-casing a character does not change what it normalizes to. -/
theorem charNorm_toLowerCh (c : Char) : charNorm (toLowerCh c) = charNorm c := by
  by_cases hl : c ∈ lowerDomain
  · exact charNorm_toLowerCh_of_mem c hl
  · rw [toLowerCh_eq_self hl]

theorem charNorm_decomp_of_mem :
    ∀ c ∈ decompDomain, (decomp c).flatMap charNorm = charNorm c := by decide

/-- Normalizing the decomposition of a character is the same as
normalizing the character. -/
theorem charNorm_decomp (c : Char) : (decomp c).flatMap charNorm = charNorm c := by
  by_cases hc : c ∈ decompDomain
  · exact charNorm_decomp_of_mem c hc
  · rw [decomp_eq_self hc]
    simp

/-! ### Trimming lemmas -/

theorem mem_of_mem_jsTrimList {d : Char} {l : List Char} (h : d ∈ jsTrimList l) :
    d ∈ l := by
  unfold jsTrimList at h
  rw [List.mem_reverse] at h
  have h2 := List.Sublist.mem h (List.dropWhile_sublist _)
  rw [List.mem_reverse] at h2
  exact List.Sublist.mem h2 (List.dropWhile_sublist _)

theorem noLeadWs_dropWhile (l : List Char) :
    NoLeadWs (l.dropWhile jsWhitespaceChar) := by
  induction l with
  | nil => intro x hx; simp at hx
  | cons c l ih =>
    rw [List.dropWhile_cons]
    split
    · exact ih
    · intro x hx
      simp only [List.head?_cons, Option.mem_def, Option.some.injEq] at hx
      subst hx
      simp_all

theorem dropWhile_eq_self_of_noLeadWs {m : List Char} (h : NoLeadWs m) :
    m.dropWhile jsWhitespaceChar = m := by
  cases m with
  | nil => rfl
  | cons c m =>
    have hc := h c (by simp)
    rw [List.dropWhile_cons, if_neg (by simp [hc])]

theorem dropWhile_ws_idem (l : List Char) :
    (l.dropWhile jsWhitespaceChar).dropWhile jsWhitespaceChar
      = l.dropWhile jsWhitespaceChar :=
  dropWhile_eq_self_of_noLeadWs (noLeadWs_dropWhile l)

theorem getLast?_dropWhile_of_ne_nil {α : Type} {p : α → Bool} {l : List α}
    (h : l.dropWhile p ≠ []) : (l.dropWhile p).getLast? = l.getLast? := by
  induction l with
  | nil => simp at h
  | cons c l ih =>
    rw [List.dropWhile_cons] at h ⊢
    by_cases hp : p c = true
    · rw [if_pos hp] at h ⊢
      rw [ih h]
      have hl : l ≠ [] := by
        rintro rfl
        simp at h
      obtain ⟨x, l, rfl⟩ := List.exists_cons_of_ne_nil hl
      rfl
    · rw [if_neg hp]

theorem noLeadWs_jsTrimList (l : List Char) : NoLeadWs (jsTrimList l) := by
  intro x hx
  unfold jsTrimList at hx
  rw [List.head?_reverse] at hx
  by_cases hnil : (l.dropWhile jsWhitespaceChar).reverse.dropWhile jsWhitespaceChar = []
  · rw [hnil] at hx
    simp at hx
  · rw [getLast?_dropWhile_of_ne_nil hnil, List.getLast?_reverse] at hx
    exact noLeadWs_dropWhile l x hx

theorem jsTrimList_idem (l : List Char) :
    jsTrimList (jsTrimList l) = jsTrimList l := by
  have hB : (jsTrimList l).dropWhile jsWhitespaceChar = jsTrimList l :=
    dropWhile_eq_self_of_noLeadWs (noLeadWs_jsTrimList l)
  have hR : (jsTrimList l).reverse
      = ((l.dropWhile jsWhitespaceChar).reverse).dropWhile jsWhitespaceChar := by
    unfold jsTrimList
    rw [List.reverse_reverse]
  show (((jsTrimList l).dropWhile jsWhitespaceChar).reverse.dropWhile
      jsWhitespaceChar).reverse = jsTrimList l
  rw [hB, hR, dropWhile_ws_idem, ← hR, List.reverse_reverse]

/-! ### `normalizeName` as a character-wise normalization -/

theorem normCore_eq (l : List Char) :
    ((nfkdList l).filter (fun c => !isCombiningMark c)).map toLowerCh
      = l.flatMap charNorm := by
  rw [nfkdList, List.filter_flatMap, List.map_flatMap]
  rfl

theorem normalizeName_eq (s : String) :
    normalizeName s = String.mk (jsTrimList (s.toList.flatMap charNorm)) := by
  unfold normalizeName
  rw [normCore_eq]

theorem flatMap_charNorm_eq_self {m : List Char} (h : ∀ d ∈ m, charNorm d = [d]) :
    m.flatMap charNorm = m := by
  induction m with
  | nil => rfl
  | cons c m ih =>
    rw [List.flatMap_cons, h c (by simp), ih (fun d hd => h d (by simp [hd]))]
    rfl

/-! ### The case/diacritic edit relation (C3) -/

theorem NameStep.flatMap_charNorm_eq {a b : List Char} (h : NameStep a b) :
    a.flatMap charNorm = b.flatMap charNorm := by
  cases h with
  | lowerEq u v c d hcd =>
    simp only [List.flatMap_append, List.flatMap_cons]
    rw [← charNorm_toLowerCh c, ← charNorm_toLowerCh d, hcd]
  | markInsert u v m hm =>
    simp only [List.flatMap_append, List.flatMap_cons, charNorm_mark hm]
    simp
  | decompose u v c =>
    simp only [List.flatMap_append, List.flatMap_cons, charNorm_decomp,
      List.append_assoc]

theorem eqvGen_flatMap_charNorm_eq {a b : List Char}
    (h : Relation.EqvGen NameStep a b) :
    a.flatMap charNorm = b.flatMap charNorm := by
  induction h with
  | rel x y hxy => exact hxy.flatMap_charNorm_eq
  | refl x => rfl
  | symm x y _ ih => exact ih.symm
  | trans x y z _ _ ih1 ih2 => exact ih1.trans ih2

/-! ### JS string-map lemmas -/

theorem jsLookup_jsSetKey (m : List (String × String)) (k v k' : String) :
    jsLookup (jsSetKey m k v) k'
      = if k = "__proto__" then jsLookup m k'
        else if k' = k then some v else jsLookup m k' := by
  unfold jsSetKey
  by_cases hpk : k = "__proto__"
  · rw [if_pos hpk, if_pos hpk]
  rw [if_neg hpk, if_neg hpk]
  by_cases h : m.any (fun p => p.1 == k)
  · rw [if_pos h]
    unfold jsLookup
    rw [List.find?_map]
    have hpred : ((fun p : String × String => p.1 == k') ∘
        (fun p => if p.1 == k then (k, v) else p))
        = (fun p : String × String => p.1 == k') := by
      funext p
      by_cases hp : p.1 == k
      · have hpk : p.1 = k := by simpa using hp
        simp [Function.comp, hp, hpk]
      · simp [Function.comp, hp]
    rw [hpred]
    by_cases hk : k' = k
    · subst hk
      have hs : (m.find? (fun p => p.1 == k')).isSome := by
        rw [List.find?_isSome]
        obtain ⟨p, hp, hpk⟩ := List.any_eq_true.mp h
        exact ⟨p, hp, hpk⟩
      obtain ⟨q, hq⟩ := Option.isSome_iff_exists.mp hs
      have hq1 : q.1 = k' := by simpa using List.find?_some hq
      rw [hq]
      simp [hq1]
    · rw [if_neg hk]
      cases hf : m.find? (fun p => p.1 == k') with
      | none => simp [hf]
      | some q =>
        have hq1 : q.1 = k' := by simpa using List.find?_some hf
        have hq2 : (q.1 == k) = false := beq_eq_false_iff_ne.mpr (by
          rw [hq1]; exact hk)
        simp [hf, hq2, hq1, hk]
  · rw [if_neg h]
    unfold jsLookup
    rw [List.find?_append]
    by_cases hk : k' = k
    · subst hk
      have h1 : m.find? (fun p => p.1 == k') = none := by
        rw [List.find?_eq_none]
        intro x hx hb
        exact h (List.any_eq_true.mpr ⟨x, hx, hb⟩)
      rw [h1]
      simp
    · have h2 : List.find? (fun p : String × String => p.1 == k') [(k, v)]
          = none := by
        simp [List.find?, beq_eq_false_iff_ne.mpr (fun he => hk he.symm)]
      rw [h2, Option.or_none, if_neg hk]

theorem jsLookup_foldl_qualify {α : Type} (f : α → Option (String × String)) :
    ∀ (xs : List α) (m : List (String × String)) (k : String),
      jsLookup (xs.foldl (fun map x =>
          match f x with
          | some kv => jsSetKey map kv.1 kv.2
          | none => map) m) k
        = (((((xs.filterMap f).filter
              (fun kv => kv.1 != "__proto__")).reverse.find?
            (fun kv => kv.1 == k)).map Prod.snd)).or (jsLookup m k) := by
  intro xs
  induction xs with
  | nil => intro m k; simp
  | cons x xs ih =>
    intro m k
    rw [List.foldl_cons, ih]
    cases hfx : f x with
    | none => simp [List.filterMap_cons, hfx]
    | some kv =>
      simp only [List.filterMap_cons, hfx, List.filter_cons]
      rw [jsLookup_jsSetKey]
      by_cases hkp : kv.1 = "__proto__"
      · rw [if_pos hkp]
        have hb : (kv.1 != "__proto__") = false := by simp [hkp]
        rw [hb]
        simp only [Bool.false_eq_true, if_false]
      · rw [if_neg hkp]
        have hb : (kv.1 != "__proto__") = true := by simp [hkp]
        rw [hb]
        simp only [if_true]
        rw [List.reverse_cons, List.find?_append]
        cases hfind : (((xs.filterMap f).filter
            (fun kv => kv.1 != "__proto__")).reverse.find?
            (fun p => p.1 == k)) with
        | some q => simp [hfind]
        | none =>
          simp only [hfind, Option.none_or]
          by_cases hk : k = kv.1
          · subst hk
            simp [List.find?]
          · have h2 : List.find? (fun p : String × String => p.1 == k) [kv]
                = none := by
              simp [List.find?, beq_eq_false_iff_ne.mpr (fun he => hk he.symm)]
            rw [h2]
            simp [hk]

theorem arrStep_eq :
    (fun (map : List (String × String)) (entry : JVal) =>
      if jsTruthy entry && isObjectType entry then
        match jsGetField entry "token", jsGetField entry "name" with
        | some tv, some nv =>
            if jsTruthy tv && jsTruthy nv then
              jsSetKey map (jsToString tv) (jsToString nv)
            else map
        | _, _ => map
      else map)
    = (fun map entry =>
        match arrQualify entry with
        | some kv => jsSetKey map kv.1 kv.2
        | none => map) := by
  funext map entry
  unfold arrQualify
  by_cases h : jsTruthy entry && isObjectType entry
  · simp only [h, if_true]
    cases jsGetField entry "token" with
    | none => simp
    | some tv =>
      cases jsGetField entry "name" with
      | none => simp
      | some nv =>
        by_cases h2 : jsTruthy tv && jsTruthy nv
        · simp [h2]
        · simp [h2]
  · simp [h]

theorem mapStep_eq :
    (fun (map : List (String × String)) (p : String × JVal) =>
      match p.2 with
      | .str s => if jsTrim s != "" then jsSetKey map p.1 (jsTrim s) else map
      | _ => map)
    = (fun map p =>
        match mapQualify p with
        | some kv => jsSetKey map kv.1 kv.2
        | none => map) := by
  funext map p
  unfold mapQualify
  cases p.2 with
  | str s =>
    by_cases h : jsTrim s != ""
    · simp [h]
    · simp [h]
  | null => simp
  | bool b => simp
  | num n => simp
  | arr l => simp
  | obj l => simp

/-- C4 (amended): `normalizeGuestTokens` accepts both supported
guest-token file shapes and produces the same canonical map.  For an
array input, every element that is an object with truthy `token` and
`name` fields contributes `String(token) ↦ String(name)` (later
contributions for the same token overwrite earlier ones); for a mapping
input, every key whose value is a string that is non-empty after
trimming contributes `key ↦ trimmed value`, using the nested `tokens`
object when present; `null`, booleans, numbers and strings yield the
empty map — except that a contribution keyed `__proto__` is silently
discarded, because the assignment hits the inherited prototype accessor
and creates no own property. -/
theorem normalizeGuestTokens_spec :
    (∀ (entries : List JVal) (k : String),
      jsLookup (normalizeGuestTokens (.arr entries)) k
        = ((((entries.filterMap arrQualify).filter
            (fun kv => kv.1 != "__proto__")).reverse.find?
            (fun kv => kv.1 == k)).map Prod.snd))
    ∧ (∀ (fields : List (String × JVal)) (k : String),
      jsLookup (normalizeGuestTokens (.obj fields)) k
        = (((((jsOwnEntries (tokensSource (.obj fields))).filterMap
            mapQualify).filter (fun kv => kv.1 != "__proto__")).reverse.find?
            (fun kv => kv.1 == k)).map Prod.snd))
    ∧ normalizeGuestTokens .null = []
    ∧ (∀ b, normalizeGuestTokens (.bool b) = [])
    ∧ (∀ n, normalizeGuestTokens (.num n) = [])
    ∧ (∀ s, normalizeGuestTokens (.str s) = []) := by
  refine ⟨?_, ?_, rfl, ?_, ?_, ?_⟩
  · intro entries k
    rw [show normalizeGuestTokens (.arr entries) = entries.foldl (fun map entry =>
        match arrQualify entry with
        | some kv => jsSetKey map kv.1 kv.2
        | none => map) [] by
      unfold normalizeGuestTokens
      rw [← arrStep_eq]
      rfl]
    rw [jsLookup_foldl_qualify]
    simp [jsLookup]
  · intro fields k
    rw [show normalizeGuestTokens (.obj fields)
        = (jsOwnEntries (tokensSource (.obj fields))).foldl (fun map p =>
            match mapQualify p with
            | some kv => jsSetKey map kv.1 kv.2
            | none => map) [] by
      unfold normalizeGuestTokens
      rw [← mapStep_eq]
      rfl]
    rw [jsLookup_foldl_qualify]
    simp [jsLookup]
  · intro b
    cases b <;> rfl
  · intro n
    unfold normalizeGuestTokens
    split <;> rfl
  · intro s
    unfold normalizeGuestTokens
    split <;> rfl

/-- Counterexample to C4 as stated: the mapping file
`\x7b"__proto__": "Bob"\x7d` has a key whose value is a non-empty string
(it qualifies under the claimed rule), yet the normalized map contains
no entry at all, because the assignment through `__proto__` reaches the
inherited accessor instead of creating an own property. -/
theorem normalizeGuestTokens_counterexample :
    mapQualify ("__proto__", .str "Bob") = some ("__proto__", "Bob")
    ∧ normalizeGuestTokens (.obj [("__proto__", .str "Bob")]) = [] :=
  ⟨rfl, rfl⟩

/-! ### Avatar lemmas -/

theorem foldl_dedup_eq (bs : List String) :
    ∀ (u seen : List String),
      (bs.foldl (fun acc base =>
        if base = "" then acc
        else
          let key := jsToLower base
          if acc.2.contains key then acc
          else (acc.1 ++ [base], acc.2 ++ [key])) (u, seen)).1
      = u ++ dedupCaseInsensitive seen bs := by
  induction bs with
  | nil =>
    intro u seen
    simp [dedupCaseInsensitive]
  | cons b bs ih =>
    intro u seen
    rw [List.foldl_cons]
    unfold dedupCaseInsensitive
    simp only []
    by_cases hb : b = ""
    · rw [if_pos hb, if_pos hb, ih]
    · rw [if_neg hb, if_neg hb]
      by_cases hc : seen.contains (jsToLower b)
      · rw [if_pos hc, if_pos hc, ih]
      · rw [if_neg hc, if_neg hc, ih]
        simp [List.append_assoc]

theorem getAvatarBases_eq_dedup (name : String) :
    getAvatarBases name
      = dedupCaseInsensitive []
          [jsTrim name, encodeURIComponent (jsTrim name),
           jsReplaceWsUnderscore (jsTrim name),
           jsReplaceWsUnderscore (normalizeName (jsTrim name))] := by
  by_cases h : name = ""
  · subst h
    rfl
  · unfold getAvatarBases
    rw [if_neg h, foldl_dedup_eq]
    simp

theorem probeLoop_all_fail (loads : String → Bool) :
    ∀ (sources : List String) (el : AvatarEl),
      (∀ s ∈ sources, loads s = false) →
      probeLoop loads sources el = hiddenAvatarEl := by
  intro sources
  induction sources with
  | nil => intro el _; rfl
  | cons s rest ih =>
    intro el h
    have hs : loads s = false := h s (by simp)
    unfold probeLoop
    rw [hs]
    simp only [Bool.false_eq_true, if_false]
    exact ih el (fun x hx => h x (by simp [hx]))

theorem probeLoop_find (loads : String → Bool) :
    ∀ (sources : List String) (el : AvatarEl) (src : String),
      sources.find? loads = some src →
      probeLoop loads sources el = { el with src := some src } := by
  intro sources
  induction sources with
  | nil => intro el src h; simp at h
  | cons s rest ih =>
    intro el src h
    cases hs : loads s with
    | true =>
      rw [List.find?_cons, hs] at h
      simp only [Option.some.injEq] at h
      subst h
      unfold probeLoop
      rw [hs]
      simp
    | false =>
      rw [List.find?_cons, hs] at h
      unfold probeLoop
      rw [hs]
      simp only [Bool.false_eq_true, if_false]
      exact ih el src h

/-- C5: avatar resolution probes the case-insensitively deduplicated
base list (trimmed raw name, URL-encoded, underscored, ASCII-folded and
underscored), crossed with the extensions `png`, `jpg`, `jpeg`, `webp`
— all extensions of one base before the next base — and when every
probe fails (including when the name yields no bases) the element and
its wrapper are hidden with the `src` removed; the first source that
loads is the one shown. -/
theorem applyAvatar_spec (loads : String → Bool) (playerName : String) :
    getAvatarBases playerName
      = dedupCaseInsensitive []
          [jsTrim playerName, encodeURIComponent (jsTrim playerName),
           jsReplaceWsUnderscore (jsTrim playerName),
           jsReplaceWsUnderscore (normalizeName (jsTrim playerName))]
    ∧ avatarSources playerName
      = (getAvatarBases playerName).flatMap (fun base =>
          avatarExtensions.map fun ext => "./avatars/" ++ base ++ "." ++ ext)
    ∧ ((∀ src ∈ avatarSources playerName, loads src = false) →
        applyAvatar loads playerName = hiddenAvatarEl)
    ∧ (∀ src, (avatarSources playerName).find? loads = some src →
        applyAvatar loads playerName =
          ⟨false, false, some src,
            if playerName = "" then "" else playerName ++ "'s avatar"⟩) := by
  refine ⟨getAvatarBases_eq_dedup playerName, rfl, ?_, ?_⟩
  · intro h
    unfold applyAvatar
    simp only []
    by_cases he : (avatarSources playerName).isEmpty = true
    · rw [if_pos he]
    · rw [if_neg he]
      exact probeLoop_all_fail loads _ _ h
  · intro src hfind
    unfold applyAvatar
    simp only []
    have hne : ¬(avatarSources playerName).isEmpty = true := by
      intro he
      rw [List.isEmpty_iff] at he
      rw [he] at hfind
      simp at hfind
    rw [if_neg hne]
    exact probeLoop_find loads _ _ _ hfind

/-- Witness for C5: with a player whose avatar files are all missing,
the element falls back to the hidden state. -/
theorem applyAvatar_spec_witness :
    (∀ src ∈ avatarSources "Bo", (fun _ => false) src = false)
    ∧ applyAvatar (fun _ => false) "Bo" = hiddenAvatarEl :=
  ⟨fun _ _ => rfl, (applyAvatar_spec (fun _ => false) "Bo").2.2.1 (fun _ _ => rfl)⟩

/-! ### Player activity lemmas -/

theorem activityMeaningful_iff (e : ActivityEntry) :
    activityMeaningful e = true
      ↔ (0 < e.totalPlays ∨ ∃ gs, e.games = some gs ∧ gs ≠ []) := by
  unfold activityMeaningful
  cases hg : e.games with
  | none => simp
  | some gs => simp [List.isEmpty_iff]

/-- C7: `renderPlayerActivity` renders one card per entry, exactly for
the entries with `totalPlays > 0` or a non-empty games list, in list
order; when no entry qualifies the placeholder message is shown. -/
theorem renderPlayerActivity_spec (activity : List ActivityEntry)
    (hl : Option String) :
    (∀ e, activityMeaningful e = true
      ↔ (0 < e.totalPlays ∨ ∃ gs, e.games = some gs ∧ gs ≠ []))
    ∧ (activity.filter activityMeaningful = [] →
        renderPlayerActivity activity hl
          = .placeholder "Log plays to build up player activity stats.")
    ∧ (activity.filter activityMeaningful ≠ [] →
        renderPlayerActivity activity hl
          = .cards ((activity.filter activityMeaningful).map
              (renderActivityCard hl))) := by
  refine ⟨fun e => activityMeaningful_iff e, ?_, ?_⟩
  · intro h
    unfold renderPlayerActivity
    simp [h]
  · intro h
    unfold renderPlayerActivity
    have hne : ¬(activity.filter activityMeaningful).isEmpty = true := by
      rw [List.isEmpty_iff]
      exact h
    rw [if_neg hne]

/-- Witness for C7: one entry with two plays qualifies and is rendered
as a card. -/
theorem renderPlayerActivity_spec_witness :
    ([⟨"Lorenzo", 2, none, none⟩] : List ActivityEntry).filter
        activityMeaningful ≠ []
    ∧ renderPlayerActivity [⟨"Lorenzo", 2, none, none⟩] none
        = .cards ((([⟨"Lorenzo", 2, none, none⟩] : List ActivityEntry).filter
            activityMeaningful).map (renderActivityCard none)) :=
  ⟨by decide, (renderPlayerActivity_spec _ _).2.2 (by decide)⟩

/-! ### Event timeline lemmas -/

/-- C8: with a numeric limit `n ≥ 0`, `renderEvents` renders exactly
the first `min n (length events)` events in list order; with no limit
it renders every event; the preview length is the `limit` parameter of
the options, not a constant. -/
theorem renderEvents_limit_spec (fmtDate : String → String)
    (events : List EventEntry) (hl : Option String) (msg : String)
    (apl : Option Int) (ax : Bool) (n : Int) (hn : 0 ≤ n) :
    jsSliceFrom0 events n = events.take n.toNat
    ∧ (events.take n.toNat).length = min n.toNat events.length
    ∧ renderEvents fmtDate events hl (some n) msg apl ax
        = (if (events.take n.toNat).isEmpty then .message msg
           else .items ((events.take n.toNat).map
             (renderEventItem fmtDate hl ax apl)))
    ∧ renderEvents fmtDate events hl none msg apl ax
        = (if events.isEmpty then .message msg
           else .items (events.map (renderEventItem fmtDate hl ax apl))) := by
  have hslice : jsSliceFrom0 events n = events.take n.toNat := by
    unfold jsSliceFrom0
    rw [if_neg (by omega)]
  refine ⟨hslice, List.length_take _ _, ?_, rfl⟩
  unfold renderEvents
  dsimp only
  rw [hslice]

/-! ### URL token extraction lemmas -/

theorem or_chain_eq_findSome (params : UrlParams) :
    (params.get "guest").or ((params.get "token").or ((params.get "code").or
      (params.get "ticket")))
      = priorityOrder.findSome? params.get := by
  unfold priorityOrder
  cases hg : params.get "guest" with
  | some v => simp [List.findSome?_cons, hg]
  | none =>
    cases ht : params.get "token" with
    | some v => simp [List.findSome?_cons, hg, ht]
    | none =>
      cases hc : params.get "code" with
      | some v => simp [List.findSome?_cons, hg, ht, hc]
      | none =>
        cases hk : params.get "ticket" <;>
          simp [List.findSome?_cons, hg, ht, hc, hk, List.findSome?]

/-- C2 (amended): `getGuestTokenFromUrl` selects the value of the first
present parameter in the order `guest`, `token`, `code`, `ticket`
(presence, not non-emptiness, decides), replaces `+` by spaces,
URL-decodes and trims it, and returns `null` when nothing is present or
the result is empty — provided the selected value's percent-escapes are
well-formed; a malformed escape raises `URIError` instead. -/
theorem getGuestTokenFromUrl_spec (params : UrlParams) :
    ((params.get "guest").or ((params.get "token").or ((params.get "code").or
        (params.get "ticket")))
      = priorityOrder.findSome? params.get)
    ∧ ((params.get "guest").or ((params.get "token").or ((params.get "code").or
        (params.get "ticket"))) = none →
      getGuestTokenFromUrl params = .ok none)
    ∧ (∀ r d, (params.get "guest").or ((params.get "token").or
        ((params.get "code").or (params.get "ticket"))) = some r →
      decodeURIComponent (plusToSpace r) = .ok d →
      getGuestTokenFromUrl params
        = .ok (if jsTrim d = "" then none else some (jsTrim d)))
    ∧ (∀ r, (params.get "guest").or ((params.get "token").or
        ((params.get "code").or (params.get "ticket"))) = some r →
      r ≠ "" →
      decodeURIComponent (plusToSpace r) = .error .uriError →
      getGuestTokenFromUrl params = .error .uriError) := by
  refine ⟨or_chain_eq_findSome params, ?_, ?_, ?_⟩
  · intro h
    unfold getGuestTokenFromUrl
    simp only []
    rw [h]
  · intro r d hsel hdec
    unfold getGuestTokenFromUrl
    simp only []
    rw [hsel]
    dsimp only
    by_cases hr : r = ""
    · subst hr
      have hd : d = "" := by
        have h0 : decodeURIComponent (plusToSpace "") = Except.ok "" := rfl
        rw [h0] at hdec
        simpa using hdec.symm
      subst hd
      rfl
    · rw [if_neg hr, hdec]
      by_cases ht : jsTrim d = "" <;> simp [ht]
  · intro r hsel hr hdec
    unfold getGuestTokenFromUrl
    simp only []
    rw [hsel]
    dsimp only
    rw [if_neg hr, hdec]

/-- Counterexample to C2 as stated: with `?guest=%` the `guest`
parameter is present, yet the function raises `URIError` instead of
returning a token or `null`. -/
theorem getGuestTokenFromUrl_counterexample :
    paramsLonePercent.get "guest" = some "%"
    ∧ getGuestTokenFromUrl paramsLonePercent = .error .uriError :=
  ⟨rfl, rfl⟩

/-- Witness for C2 (amended): `?guest=Q7xG8O` decodes cleanly and is
returned trimmed. -/
theorem getGuestTokenFromUrl_spec_witness :
    ((paramsSasha.get "guest").or ((paramsSasha.get "token").or
        ((paramsSasha.get "code").or (paramsSasha.get "ticket")))
      = some "Q7xG8O")
    ∧ decodeURIComponent (plusToSpace "Q7xG8O") = .ok "Q7xG8O"
    ∧ getGuestTokenFromUrl paramsSasha
        = .ok (if jsTrim "Q7xG8O" = "" then none else some (jsTrim "Q7xG8O")) :=
  ⟨rfl, rfl,
    (getGuestTokenFromUrl_spec paramsSasha).2.2.1 "Q7xG8O" "Q7xG8O" rfl rfl⟩

/-- C9: when the selected (highest-priority present) parameter's value
is empty or trims to empty, the result is `null`, with no fallback to
the lower-priority parameters, whatever values they carry. -/
theorem getGuestTokenFromUrl_empty_no_fallback (params : UrlParams)
    (r : String)
    (hsel : (params.get "guest").or ((params.get "token").or
      ((params.get "code").or (params.get "ticket"))) = some r)
    (hr : r = "" ∨ ∃ d, decodeURIComponent (plusToSpace r) = .ok d
      ∧ jsTrim d = "") :
    getGuestTokenFromUrl params = .ok none := by
  unfold getGuestTokenFromUrl
  simp only []
  rw [hsel]
  dsimp only
  rcases hr with hr | ⟨d, hd, ht⟩
  · rw [if_pos hr]
  · by_cases hre : r = ""
    · rw [if_pos hre]
    · rw [if_neg hre, hd]
      simp [ht]

/-- Witness for C9: `?guest=&token=Q7xG8O` yields no token even though
the lower-priority `token` parameter carries a value. -/
theorem getGuestTokenFromUrl_empty_no_fallback_witness :
    ((paramsEmptyGuest.get "guest").or ((paramsEmptyGuest.get "token").or
        ((paramsEmptyGuest.get "code").or (paramsEmptyGuest.get "ticket")))
      = some "")
    ∧ paramsEmptyGuest.get "token" = some "Q7xG8O"
    ∧ getGuestTokenFromUrl paramsEmptyGuest = .ok none :=
  ⟨rfl, rfl,
    getGuestTokenFromUrl_empty_no_fallback paramsEmptyGuest "" rfl (Or.inl rfl)⟩

/-! ### Greeting lemmas -/

theorem jsReadProp_eq (m : List (String × String)) (k : String) :
    jsReadProp m k
      = match jsLookup m k with
        | some v => .ownStr v
        | none =>
            if objectProtoKeys.contains k then .inheritedFn else .absent := by
  unfold jsReadProp jsLookup
  cases m.find? (fun p => p.1 == k) with
  | none => rfl
  | some p => rfl

/-- C1 (amended): for every token registry and every extracted token,
the greeting is rendered exactly when `tokens[token]` is truthy: when
the token is (case-sensitively) one of the registry's keys with a
non-empty display name, the text is `Welcome to the party, <name>!` and
the name is returned; when the token names one of the properties a
plain object inherits from `Object.prototype` (`constructor`,
`toString`, `__proto__`, ...), the truthy inherited value leaks into
the greeting and a truthy value is returned although the token is not a
registry key; a registry key mapped to the empty string (possible via a
truthy non-string `name` field such as an empty array) behaves as
absent.  Every other token, and an absent token, hides the greeting and
returns `null` — provided the token extraction itself does not raise
`URIError` on a malformed percent-escape. -/
theorem renderGreeting_exact_match (protoStr : String → String)
    (tokens : List (String × String)) (params : UrlParams)
    (g0 : GreetingEl) (tok : Option String)
    (hok : getGuestTokenFromUrl params = .ok tok) :
    renderGreeting protoStr tokens params true g0
      = .ok (greetingOutcome protoStr tokens tok) := by
  unfold renderGreeting greetingOutcome
  cases tok with
  | none =>
    rw [hok]
    rfl
  | some t =>
    rw [hok]
    dsimp only
    rw [jsReadProp_eq]
    cases hl : jsLookup tokens t with
    | some v =>
      by_cases hv : v = "" <;> simp [hv]
    | none =>
      by_cases hp : t ∈ objectProtoKeys <;> simp [hp]

/-- Counterexample to C1 as stated, in three parts.  First, the token
`constructor` is not a registry key, yet the greeting is rendered from
the inherited `Object.prototype.constructor` and a truthy value
returned. Second, a URL such as `?guest=%25C3` supplies the token value
`%C3`, and `renderGreeting` raises `URIError` instead of silently
hiding the greeting.  Third, an array entry whose truthy non-string
`name` (an empty array) stringifies to the empty display name yields a
registry whose key `a` draws no greeting although it is exactly the
supplied token. -/
theorem renderGreeting_counterexample :
    (jsLookup sampleTokens "constructor" = none
      ∧ renderGreeting sampleProtoStr sampleTokens paramsGuestConstructor true
          ⟨true, ""⟩
        = .ok (⟨false, "Welcome to the party, "
              ++ sampleProtoStr "constructor" ++ "!"⟩,
            some (sampleProtoStr "constructor")))
    ∧ (jsLookup sampleTokens "%C3" = none
      ∧ renderGreeting sampleProtoStr sampleTokens paramsTruncatedUtf8 true
          ⟨true, ""⟩ = .error .uriError)
    ∧ (normalizeGuestTokens
          (.arr [.obj [("token", .str "a"), ("name", .arr [])]]) = [("a", "")]
      ∧ renderGreeting sampleProtoStr [("a", "")] paramsGuestA true ⟨true, ""⟩
          = .ok (⟨true, ""⟩, none)) :=
  ⟨⟨rfl, rfl⟩, ⟨rfl, rfl⟩, rfl, rfl⟩

/-- Witness for C1 (amended): token `Q7xG8O` greets Sasha. -/
theorem renderGreeting_exact_match_witness :
    getGuestTokenFromUrl paramsSasha = .ok (some "Q7xG8O")
    ∧ renderGreeting sampleProtoStr sampleTokens paramsSasha true ⟨true, ""⟩
        = .ok (greetingOutcome sampleProtoStr sampleTokens (some "Q7xG8O")) :=
  ⟨rfl,
    renderGreeting_exact_match sampleProtoStr sampleTokens paramsSasha
      ⟨true, ""⟩ (some "Q7xG8O") rfl⟩

/-! ### The C3 and C10 claims about `normalizeName` -/

/-- C3: name matching for highlight purposes is diacritic- and
case-insensitive — two names that differ only in letter case and/or
combining diacritical marks normalize to the same string, so the
highlight comparison succeeds on them. -/
theorem normalizeName_case_diacritic_insensitive (s t : String)
    (h : CaseDiacriticEquiv s t) :
    normalizeName s = normalizeName t ∧ highlightMatch s t = true := by
  have heq : normalizeName s = normalizeName t := by
    rw [normalizeName_eq, normalizeName_eq, eqvGen_flatMap_charNorm_eq h]
  exact ⟨heq, by simp [highlightMatch, heq]⟩

/-- Witness for C3: `José` and `jose` differ only in case and
diacritics and normalize identically. -/
theorem normalizeName_case_diacritic_insensitive_witness :
    CaseDiacriticEquiv "José" "jose"
    ∧ (normalizeName "José" = normalizeName "jose"
      ∧ highlightMatch "José" "jose" = true) := by
  have d1 : NameStep "José".toList ['j', 'o', 's', 'é'] :=
    NameStep.lowerEq [] ['o', 's', 'é'] 'J' 'j' (by decide)
  have d2 : NameStep ['j', 'o', 's', 'é'] ['j', 'o', 's', 'e', '́'] :=
    NameStep.decompose ['j', 'o', 's'] [] 'é'
  have d3 : NameStep ['j', 'o', 's', 'e'] ['j', 'o', 's', 'e', '́'] :=
    NameStep.markInsert ['j', 'o', 's', 'e'] [] '́' (by decide)
  have hequiv : CaseDiacriticEquiv "José" "jose" :=
    Relation.EqvGen.trans _ _ _ (Relation.EqvGen.rel _ _ d1)
      (Relation.EqvGen.trans _ _ _ (Relation.EqvGen.rel _ _ d2)
        (Relation.EqvGen.symm _ _ (Relation.EqvGen.rel _ _ d3)))
  exact ⟨hequiv, normalizeName_case_diacritic_insensitive "José" "jose" hequiv⟩

/-- C10: `normalizeName` is idempotent — an already normalized value is
a fixed point of the normalization used for highlight comparisons. -/
theorem normalizeName_idempotent (s : String) :
    normalizeName (normalizeName s) = normalizeName s := by
  rw [normalizeName_eq s, normalizeName_eq]
  have htl : (String.mk (jsTrimList (s.toList.flatMap charNorm))).toList
      = jsTrimList (s.toList.flatMap charNorm) := rfl
  rw [htl]
  have hfix : ∀ d ∈ jsTrimList (s.toList.flatMap charNorm),
      charNorm d = [d] := by
    intro d hd
    obtain ⟨c, _, hdc⟩ := List.mem_flatMap.mp (mem_of_mem_jsTrimList hd)
    exact charNorm_reduced hdc
  rw [flatMap_charNorm_eq_self hfix, jsTrimList_idem]

/-! ### `init` error-handling lemmas -/

/-- C6: a fetch failure degrades only the affected sections.  When the
guest-token fetch fails, `init` still renders the greeting — from the
empty registry — and proceeds to render every present data section from
the leaderboard feed; when the leaderboard fetch fails, every data
section present on the page is replaced with its literal user-facing
error message and the greeting rendered from the token registry is left
intact.  Both parts quantify over `renderGreeting`'s actual result, so
they also cover the prototype-key tokens for which the greeting from an
empty registry is not hidden; a token whose extraction raises is a
non-fetch failure outside this claim (`init` then errors before any
fetch handling). -/
theorem init_fetch_failure_spec (protoStr : String → String) (doc : PageDoc)
    (params : UrlParams) (g0 : GreetingEl) :
    (∀ (lbJ : JVal) (gEl : GreetingEl) (hl : Option String),
      renderGreeting protoStr [] params doc.greeting g0 = .ok (gEl, hl) →
      init protoStr doc params g0 (.error ()) (.ok lbJ)
          = .ok ⟨gEl, hl,
              (if doc.leaderboardList then .fromData else .initial),
              (if doc.recentPlays then .fromData else .initial),
              (if doc.eventsTimeline then .fromData else .initial),
              (if doc.allEventsList then .fromData else .initial),
              (if doc.allPlaysList then .fromData else .initial),
              (if doc.playerActivity then .fromData else .initial)⟩)
    ∧ (∀ (tokensFetch : Except Unit JVal) (gEl : GreetingEl)
        (hl : Option String),
        renderGreeting protoStr (fetchedTokens tokensFetch) params doc.greeting
            g0 = .ok (gEl, hl) →
        init protoStr doc params g0 tokensFetch (.error ())
          = .ok ⟨gEl, hl,
              (if doc.leaderboardList then
                .errMsg "We could not load the leaderboard right now. Refresh to try again or contact Lorenzo."
              else .initial),
              (if doc.recentPlays then .errMsg "Could not load plays."
              else .initial),
              (if doc.eventsTimeline then .errMsg "Could not load point log."
              else .initial),
              (if doc.allEventsList then .errMsg "Could not load point log."
              else .initial),
              (if doc.allPlaysList then .errMsg "Could not load plays."
              else .initial),
              (if doc.playerActivity then
                .errMsg "Player activity unavailable."
              else .initial)⟩) := by
  constructor
  · intro lbJ gEl hl hg
    unfold init
    have hfe : fetchedTokens (Except.error ()) = ([] : List (String × String)) :=
      rfl
    rw [hfe]
    dsimp only
    rw [hg]
  · intro tokensFetch gEl hl hg
    unfold init
    dsimp only
    rw [hg]
    rfl

/-- Witness for C6: on a page with every section, a failing token fetch
still renders the greeting (hidden here: `Q7xG8O` is neither a key of
the empty registry nor a prototype property) and a subsequent
leaderboard success renders every section, while a leaderboard failure
fills every section with its error message. -/
theorem init_fetch_failure_spec_witness :
    renderGreeting sampleProtoStr [] paramsSasha fullDoc.greeting ⟨true, ""⟩
        = .ok (⟨true, ""⟩, none)
    ∧ init sampleProtoStr fullDoc paramsSasha ⟨true, ""⟩ (.error ()) (.ok .null)
        = .ok ⟨⟨true, ""⟩, none, .fromData, .fromData, .fromData, .fromData,
            .fromData, .fromData⟩
    ∧ init sampleProtoStr fullDoc paramsSasha ⟨true, ""⟩ (.error ()) (.error ())
        = .ok ⟨⟨true, ""⟩, none,
            .errMsg "We could not load the leaderboard right now. Refresh to try again or contact Lorenzo.",
            .errMsg "Could not load plays.",
            .errMsg "Could not load point log.",
            .errMsg "Could not load point log.",
            .errMsg "Could not load plays.",
            .errMsg "Player activity unavailable."⟩ :=
  ⟨rfl,
    (init_fetch_failure_spec sampleProtoStr fullDoc paramsSasha ⟨true, ""⟩).1
      .null ⟨true, ""⟩ none rfl,
    (init_fetch_failure_spec sampleProtoStr fullDoc paramsSasha ⟨true, ""⟩).2
      (.error ()) ⟨true, ""⟩ none rfl⟩

/-- Witness for C8: a limit of 2 renders the first two of three
events. -/
theorem renderEvents_limit_spec_witness :
    (0 : Int) ≤ 2
    ∧ (jsSliceFrom0 sampleEvents 2 = sampleEvents.take (2 : Int).toNat
      ∧ (sampleEvents.take (2 : Int).toNat).length
          = min (2 : Int).toNat sampleEvents.length
      ∧ renderEvents id sampleEvents none (some 2) "empty" none false
          = (if (sampleEvents.take (2 : Int).toNat).isEmpty
             then .message "empty"
             else .items ((sampleEvents.take (2 : Int).toNat).map
               (renderEventItem id none false none)))
      ∧ renderEvents id sampleEvents none none "empty" none false
          = (if sampleEvents.isEmpty then .message "empty"
             else .items (sampleEvents.map
               (renderEventItem id none false none)))) :=
  ⟨by decide, renderEvents_limit_spec id sampleEvents none "empty" none false 2
    (by decide)⟩

end GameNights
